import Mathlib

/-!
Shallow embedding of the `BakeryManager` domain logic of
`Bakery-Management-System` (`src/main.py`), together with proofs about it.

Python floats and ints that flow through prices/quantities are modelled as
rationals (`ℚ`); Python dicts (`recipe`, order `items`) are modelled as
association lists in insertion order; the four in-memory collections of the
manager are Lean lists.  File persistence (`save_data`) and the Tk widgets
are outside the model: each GUI `submit` handler is embedded as the pure
state transformation it performs on the manager after its input widgets
have been read.
-/

namespace Bakery

/-- `Ingredient.__init__` (src/main.py lines 36-41). -/
structure Ingredient where
  name : String
  quantity : ℚ
  unit : String
  reorder_level : ℚ
deriving Repr, DecidableEq

/-- `Product.__init__` (src/main.py lines 51-56): `recipe` is a dict
mapping ingredient name to quantity, kept as an association list. -/
structure Product where
  name : String
  price : ℚ
  recipe : List (String × ℚ)
  quantity : ℚ
deriving Repr, DecidableEq

/-- `Order.__init__` (src/main.py lines 66-73): `order_id` and `timestamp`
are produced from `datetime.now()`; they are kept as opaque strings chosen
by the caller of `create_order`. -/
structure Order where
  order_id : String
  customer_name : String
  items : List (String × ℚ)
  total : ℚ
  status : String
  timestamp : String
deriving Repr, DecidableEq

/-- `Staff.__init__` (src/main.py lines 86-90). -/
structure Staff where
  name : String
  role : String
  shifts : List String
deriving Repr, DecidableEq

/-- The four in-memory collections of `BakeryManager` (src/main.py
lines 98-103). -/
structure BakeryManager where
  ingredients : List Ingredient
  products : List Product
  orders : List Order
  staff : List Staff
deriving Repr, DecidableEq

/-- `BakeryManager.add_ingredient` (src/main.py lines 124-126). -/
def add_ingredient (m : BakeryManager) (name : String) (quantity : ℚ)
    (unit : String) (reorder_level : ℚ) : BakeryManager :=
  { m with ingredients := m.ingredients ++ [⟨name, quantity, unit, reorder_level⟩] }

/-- `BakeryManager.check_low_stock` (src/main.py lines 136-137):
`[ing for ing in self.ingredients if ing.quantity < ing.reorder_level]`. -/
def check_low_stock (m : BakeryManager) : List Ingredient :=
  m.ingredients.filter (fun ing => ing.quantity < ing.reorder_level)

/-- `BakeryManager.add_product` (src/main.py lines 139-141). -/
def add_product (m : BakeryManager) (name : String) (price : ℚ)
    (recipe : List (String × ℚ)) (quantity : ℚ) : BakeryManager :=
  { m with products := m.products ++ [⟨name, price, recipe, quantity⟩] }

/-- Price lookup over a product list:
`next((p for p in products if p.name == product_name), None)`, then
`product.price if product else 0`. -/
def price_in (ps : List Product) (product_name : String) : ℚ :=
  match ps.find? (fun p => p.name == product_name) with
  | some p => p.price
  | none => 0

/-- `BakeryManager.get_product_price` (src/main.py lines 161-163). -/
def get_product_price (m : BakeryManager) (product_name : String) : ℚ :=
  price_in m.products product_name

/-- One pass of the deduction loop of `create_order`
(src/main.py lines 150-152): `next(p for p in self.products if p.name ==
product_name)` selects the first product with the given name, and its
`quantity` is decremented in place. -/
def deduct_first (ps : List Product) (pn : String) (qty : ℚ) : List Product :=
  match ps with
  | [] => []
  | p :: rest =>
    if p.name == pn then { p with quantity := p.quantity - qty } :: rest
    else p :: deduct_first rest pn qty

/-- The whole deduction loop of `create_order`: one `deduct_first` per
`(product_name, qty)` entry of `items`, in dict iteration order. -/
def deduct_products (ps : List Product) (items : List (String × ℚ)) : List Product :=
  items.foldl (fun acc it => deduct_first acc it.1 it.2) ps

/-- `BakeryManager.create_order` (src/main.py lines 143-159).  The first
loop returns `False` as soon as some `items` entry has no product of that
name (`not product`, where `next(..., None)` takes the first match) or the
found product has `product.quantity < qty`.  Only when every entry passes
are quantities deducted, and then the order is appended with
`status="Pending"` (the `Order.__init__` default) and
`total = sum(self.get_product_price(name) * qty for name, qty in items)`,
evaluated over the already-deducted product list.  `oid` and `ts` stand for
the `datetime.now()`-derived `order_id` and `timestamp`. -/
def create_order (m : BakeryManager) (customer_name : String)
    (items : List (String × ℚ)) (oid ts : String) : Bool × BakeryManager :=
  if items.all (fun it =>
      match m.products.find? (fun p => p.name == it.1) with
      | none => false
      | some p => decide (it.2 ≤ p.quantity)) then
    let products2 := deduct_products m.products items
    let total := (items.map (fun it => price_in products2 it.1 * it.2)).sum
    let order : Order :=
      { order_id := oid, customer_name := customer_name, items := items,
        total := total, status := "Pending", timestamp := ts }
    (true, { m with products := products2, orders := m.orders ++ [order] })
  else
    (false, m)

/-- `BakeryManager.add_staff` (src/main.py lines 165-167): an
unconditional append. -/
def add_staff (m : BakeryManager) (name role : String)
    (shifts : List String) : BakeryManager :=
  { m with staff := m.staff ++ [⟨name, role, shifts⟩] }

/-- One step of the counting dict of `get_popular_products`
(src/main.py lines 177-182): `product_counts[product] =
product_counts.get(product, 0) + qty`, insertion-ordered. -/
def bump_count (counts : List (String × ℚ)) (key : String) (qty : ℚ) :
    List (String × ℚ) :=
  if counts.any (fun c => c.1 == key) then
    counts.map (fun c => if c.1 == key then (c.1, c.2 + qty) else c)
  else counts ++ [(key, qty)]

/-- `BakeryManager.get_popular_products` (src/main.py lines 177-182):
accumulate ordered quantities per product over all orders, then
`sorted(..., key=lambda x: x[1], reverse=True)` (stable, by count
descending). -/
def get_popular_products (m : BakeryManager) : List (String × ℚ) :=
  let product_counts :=
    m.orders.foldl (fun acc o => o.items.foldl (fun a it => bump_count a it.1 it.2) acc) []
  product_counts.mergeSort (fun a b => decide (b.2 ≤ a.2))

/-- The dict returned by `generate_sales_report`. -/
structure SalesReport where
  total_sales : ℚ
  total_orders : Nat
  popular_products : List (String × ℚ)
deriving Repr, DecidableEq

/-- `BakeryManager.generate_sales_report` (src/main.py lines 169-175):
`total_sales = sum(order.total for order in self.orders if order.status ==
"Completed")` is a left-to-right accumulation over the orders list. -/
def generate_sales_report (m : BakeryManager) : SalesReport :=
  { total_sales :=
      m.orders.foldl (fun acc o => if o.status == "Completed" then acc + o.total else acc) 0,
    total_orders := m.orders.length,
    popular_products := get_popular_products m }

/-- `mark_orders_complete` inside `BakeryGUI.pending_orders`
(src/main.py lines 1396-1402): every order whose id is in
`self.selected_orders` gets `status = "Completed"`. -/
def mark_orders_complete (m : BakeryManager) (selected : List String) : BakeryManager :=
  { m with orders := m.orders.map (fun o =>
      if selected.contains o.order_id then { o with status := "Completed" } else o) }

/-- `order.items[product_name] += quantity` / `order.items[product_name] =
quantity` on the items dict (src/main.py lines 917-920): update the
existing key in place, or append a new one.  On an association list with
distinct keys (as any Python dict has) the `map` touches exactly the one
matching entry. -/
def bump_items (items : List (String × ℚ)) (pn : String) (qty : ℚ) :
    List (String × ℚ) :=
  if items.any (fun it => it.1 == pn) then
    items.map (fun it => if it.1 == pn then (it.1, it.2 + qty) else it)
  else items ++ [(pn, qty)]

/-- The mutations `submit` of `BakeryGUI.update_order_status_window`
applies through the `order` reference (src/main.py lines 916-929): they
land on the first order whose `order_id` matches, setting
`items`, `total += price * quantity` and `status = "Updated"`. -/
def update_first_order (os : List Order) (oid pn : String) (qty price : ℚ) :
    List Order :=
  match os with
  | [] => []
  | o :: rest =>
    if o.order_id == oid then
      { o with items := bump_items o.items pn qty,
               total := o.total + price * qty,
               status := "Updated" } :: rest
    else o :: update_first_order rest oid pn qty price

/-- `submit` of `BakeryGUI.update_order_status_window`
(src/main.py lines 882-934) after the widgets are read: empty fields, an
unparsable or non-positive quantity, a missing order, a missing product or
insufficient stock all show an error dialog and leave the manager
untouched; otherwise the first matching order gains the item and
`price * quantity` on its total, its status becomes `"Updated"`, and the
first matching product loses `quantity` units.  `quantity?` is `none` when
`float(quantity)` raised `ValueError`. -/
def update_order_submit (m : BakeryManager) (order_id product_name : String)
    (quantity? : Option ℚ) : BakeryManager :=
  if order_id = "" ∨ product_name = "" then m
  else
    match quantity? with
    | none => m
    | some quantity =>
      if quantity ≤ 0 then m
      else
        match m.orders.find? (fun o => o.order_id == order_id) with
        | none => m
        | some _ =>
          match m.products.find? (fun p => p.name == product_name) with
          | none => m
          | some product =>
            if product.quantity < quantity then m
            else
              { m with
                orders := update_first_order m.orders order_id product_name
                  quantity product.price,
                products := deduct_first m.products product_name quantity }

/-- `product.quantity += quantity` through the reference returned by
`next((p for p in self.manager.products if p.name == product_name), None)`:
the first product with that name gains `qty` units. -/
def add_first (ps : List Product) (pn : String) (qty : ℚ) : List Product :=
  match ps with
  | [] => []
  | p :: rest =>
    if p.name == pn then { p with quantity := p.quantity + qty } :: rest
    else p :: add_first rest pn qty

/-- `submit` of `BakeryGUI.product_status_window`
(src/main.py lines 1258-1278): empty fields or an unparsable quantity
(`quantity?` = `none`) leave the manager untouched; otherwise the first
product with the entered name gains `quantity` units, and a missing
product only shows an error dialog. -/
def product_status_submit (m : BakeryManager) (product_name : String)
    (quantity? : Option ℚ) : BakeryManager :=
  if product_name = "" then m
  else
    match quantity? with
    | none => m
    | some quantity =>
      match m.products.find? (fun p => p.name == product_name) with
      | none => m
      | some _ => { m with products := add_first m.products product_name quantity }

/-- `submit` of `BakeryGUI.add_staff_window` (src/main.py lines 983-1015)
after the widgets are read: an empty name, role or shifts field, a role
that `int(...)` rejects (modelled with `String.toInt?`), an already-used
role, or a shifts string with no nonempty comma-separated part, each show
an error dialog and leave the manager untouched; otherwise
`manager.add_staff` appends the new member with the stripped shift list. -/
def add_staff_submit (m : BakeryManager) (name roll shifts_input : String) :
    BakeryManager :=
  if name = "" then m
  else if roll = "" then m
  else
    match roll.toInt? with
    | none => m
    | some _ =>
      if shifts_input = "" then m
      else if m.staff.any (fun s => s.role == roll) then m
      else if ((shifts_input.splitOn ",").map String.trim).filter
          (fun s => s ≠ "") = [] then m
      else add_staff m name roll
        (((shifts_input.splitOn ",").map String.trim).filter (fun s => s ≠ ""))

/-! ### Helper lemmas -/

lemma price_in_cons (q : Product) (ps : List Product) (pn : String) :
    price_in (q :: ps) pn = if q.name == pn then q.price else price_in ps pn := by
  cases h : q.name == pn <;>
    simp [price_in, List.find?_cons, h]

lemma price_in_first (l1 : List Product) (p : Product) (l2 : List Product)
    (pn : String) (hp : p.name = pn) (hl : ∀ q ∈ l1, q.name ≠ pn) :
    price_in (l1 ++ p :: l2) pn = p.price := by
  induction l1 with
  | nil => simp [price_in_cons, hp]
  | cons q rest ih =>
    have hq : (q.name == pn) = false := by simpa using hl q (by simp)
    rw [List.cons_append, price_in_cons, hq]
    simp only [Bool.false_eq_true, if_false]
    exact ih (fun r hr => hl r (by simp [hr]))

lemma price_in_not_found (ps : List Product) (pn : String)
    (h : ∀ p ∈ ps, p.name ≠ pn) : price_in ps pn = 0 := by
  unfold price_in
  rw [List.find?_eq_none.mpr (by simpa using h)]

lemma price_in_deduct_first (ps : List Product) (qn : String) (qty : ℚ)
    (pn : String) :
    price_in (deduct_first ps qn qty) pn = price_in ps pn := by
  induction ps with
  | nil => rfl
  | cons p rest ih =>
    simp only [deduct_first]
    cases h : p.name == qn
    · rw [if_neg (by simp), price_in_cons, price_in_cons, ih]
    · rw [if_pos rfl, price_in_cons, price_in_cons]

lemma price_in_deduct_products (items : List (String × ℚ)) (ps : List Product)
    (pn : String) :
    price_in (deduct_products ps items) pn = price_in ps pn := by
  induction items generalizing ps with
  | nil => rfl
  | cons it rest ih =>
    show price_in (deduct_products (deduct_first ps it.1 it.2) rest) pn = _
    rw [ih, price_in_deduct_first]

/-- A concrete manager state used to instantiate the theorems below. -/
def demo_manager : BakeryManager :=
  { ingredients := [⟨"Flour", 10, "kg", 5⟩, ⟨"Salt", 3, "kg", 3⟩],
    products := [⟨"Bread", 5, [("Flour", 1)], 10⟩, ⟨"Cake", 20, [("Flour", 2)], 3⟩],
    orders := [],
    staff := [⟨"ann", "7", ["Mon 8-5"]⟩] }

/-! ### C3: order creation never touches ingredients -/

/-- C3: for every state and every `create_order` call, successful or not,
the ingredients collection is unchanged — no ingredient quantity is ever
decremented on order creation, products' recipes notwithstanding. -/
theorem create_order_preserves_ingredients (m : BakeryManager)
    (cn : String) (items : List (String × ℚ)) (oid ts : String) :
    ((create_order m cn items oid ts).2).ingredients = m.ingredients := by
  unfold create_order
  split <;> rfl

/-! ### C4: low-stock report -/

/-- C4: `check_low_stock` returns exactly the ingredients whose quantity is
strictly below their reorder level, keeping the order of the ingredients
list (a sublist), and an ingredient whose quantity equals its reorder level
is never reported. -/
theorem check_low_stock_spec (m : BakeryManager) :
    (check_low_stock m).Sublist m.ingredients
    ∧ (∀ ing, ing ∈ check_low_stock m ↔
        ing ∈ m.ingredients ∧ ing.quantity < ing.reorder_level)
    ∧ (∀ ing, ing.quantity < ing.reorder_level →
        (check_low_stock m).count ing = m.ingredients.count ing)
    ∧ (∀ ing ∈ m.ingredients, ing.quantity = ing.reorder_level →
        ing ∉ check_low_stock m) := by
  refine ⟨List.filter_sublist _, fun ing => ?_, fun ing hlow => ?_,
    fun ing _ heq hmem => ?_⟩
  · simp [check_low_stock]
  · exact List.count_filter (by simpa using hlow)
  · have := (by simp [check_low_stock] at hmem; exact hmem.2 :
      ing.quantity < ing.reorder_level)
    simp [heq] at this

/-! ### C5: sales report -/

lemma sales_foldl (os : List Order) (a : ℚ) :
    os.foldl (fun acc o => if o.status == "Completed" then acc + o.total else acc) a
      = a + ((os.filter (fun o => o.status == "Completed")).map Order.total).sum := by
  induction os generalizing a with
  | nil => simp
  | cons o rest ih =>
    simp only [List.foldl_cons, List.filter_cons]
    cases hb : o.status == "Completed"
    · rw [if_neg (by simp), if_neg (by simp), ih]
    · rw [if_pos rfl, if_pos rfl, ih, List.map_cons, List.sum_cons]
      ring

/-- C5: `generate_sales_report` reports `total_sales` as the sum of the
totals of exactly the orders with status `"Completed"`, while
`total_orders` counts the whole orders list; appending an order whose
status is `"Pending"` or `"Updated"` leaves `total_sales` unchanged but
still increments `total_orders`. -/
theorem generate_sales_report_spec (m : BakeryManager) :
    (generate_sales_report m).total_sales
        = ((m.orders.filter (fun o => o.status == "Completed")).map Order.total).sum
    ∧ (generate_sales_report m).total_orders = m.orders.length
    ∧ ∀ o : Order, o.status = "Pending" ∨ o.status = "Updated" →
        (generate_sales_report { m with orders := m.orders ++ [o] }).total_sales
          = (generate_sales_report m).total_sales
        ∧ (generate_sales_report { m with orders := m.orders ++ [o] }).total_orders
          = m.orders.length + 1 := by
  have hnc : ∀ o : Order, o.status = "Pending" ∨ o.status = "Updated" →
      (o.status == "Completed") = false := by
    rintro o (h | h) <;> simp [h]
  refine ⟨?_, rfl, fun o ho => ⟨?_, ?_⟩⟩
  · simp only [generate_sales_report]
    rw [sales_foldl, zero_add]
  · simp only [generate_sales_report]
    rw [sales_foldl, sales_foldl, List.filter_append]
    simp [hnc o ho]
  · simp [generate_sales_report]

/-! ### C8: product-side operations never touch order totals -/

/-- C8: neither `add_product` nor the product-quantity `submit` handler of
`product_status_window` changes any existing order — in particular every
order's `total` stays what it was at creation, whatever happens to the
product table afterwards. -/
theorem product_ops_preserve_order_totals (m : BakeryManager) (n : String)
    (price : ℚ) (recipe : List (String × ℚ)) (q : ℚ) (pn : String)
    (q? : Option ℚ) :
    (add_product m n price recipe q).orders.map Order.total
        = m.orders.map Order.total
    ∧ (product_status_submit m pn q?).orders.map Order.total
        = m.orders.map Order.total := by
  refine ⟨rfl, ?_⟩
  unfold product_status_submit
  split
  · rfl
  · split
    · rfl
    · split <;> rfl

/-! ### C10: price lookup takes the first match and defaults to 0 -/

/-- C10: `get_product_price` returns the price of the first product in the
products list with the requested name, and total-returns `0` when no
product has that name. -/
theorem get_product_price_spec (m : BakeryManager) (pn : String) :
    ((∀ p ∈ m.products, p.name ≠ pn) → get_product_price m pn = 0)
    ∧ ∀ l1 (p : Product) l2, m.products = l1 ++ p :: l2 → p.name = pn →
        (∀ q ∈ l1, q.name ≠ pn) → get_product_price m pn = p.price := by
  constructor
  · exact fun h => price_in_not_found _ _ h
  · intro l1 p l2 hsplit hp hl
    unfold get_product_price
    rw [hsplit]
    exact price_in_first l1 p l2 pn hp hl

/-! ### C9: a failed create_order leaves the whole state unchanged -/

/-- C9: when `create_order` returns `False` — some requested product is
missing or short on stock — the manager is left exactly as it was:
products, orders, ingredients and staff all unchanged, with no partial
deduction, because the availability check runs over all items before any
mutation. -/
theorem create_order_false_frame (m : BakeryManager) (cn : String)
    (items : List (String × ℚ)) (oid ts : String)
    (h : (create_order m cn items oid ts).1 = false) :
    (create_order m cn items oid ts).2 = m := by
  by_cases hc : (items.all (fun it =>
      match m.products.find? (fun p => p.name == it.1) with
      | none => false
      | some p => decide (it.2 ≤ p.quantity))) = true
  · exfalso
    simp [create_order, hc] at h
  · simp [create_order, hc]

/-- Witness for C9: ordering 5 Cakes when only 3 are in stock fails and
leaves the demo state untouched. -/
theorem create_order_false_frame_witness :
    (create_order demo_manager "bob" [("Cake", 5)] "20250101" "t").2
      = demo_manager :=
  create_order_false_frame demo_manager "bob" [("Cake", 5)] "20250101" "t"
    (by decide)

/-! ### C1: a successful create_order appends one order with the
creation-time total -/

/-- C1: when `create_order` returns `True`, exactly one new order is
appended to the orders list, and its `total` is the sum over the ordered
items of `get_product_price` at creation time (product prices as they
stood when the order was placed) times the ordered quantity. -/
theorem create_order_true_appends_order (m : BakeryManager) (cn : String)
    (items : List (String × ℚ)) (oid ts : String)
    (h : (create_order m cn items oid ts).1 = true) :
    ∃ o : Order,
      ((create_order m cn items oid ts).2).orders = m.orders ++ [o]
      ∧ o.total = (items.map (fun it => get_product_price m it.1 * it.2)).sum := by
  by_cases hc : (items.all (fun it =>
      match m.products.find? (fun p => p.name == it.1) with
      | none => false
      | some p => decide (it.2 ≤ p.quantity))) = true
  · refine ⟨Order.mk oid cn items
      ((items.map
        (fun it => price_in (deduct_products m.products items) it.1 * it.2)).sum)
      "Pending" ts, ?_, ?_⟩
    · simp [create_order, hc]
    · simp only [get_product_price]
      exact congrArg List.sum (List.map_congr_left fun it _ => by
        rw [price_in_deduct_products])
  · exfalso
    simp [create_order, hc] at h

/-- Witness for C1: ordering 2 Breads at price 5 appends one order with
total 10. -/
theorem create_order_true_appends_order_witness :
    ∃ o : Order,
      ((create_order demo_manager "alice" [("Bread", 2)] "20250101" "t").2).orders
        = demo_manager.orders ++ [o]
      ∧ o.total = ([(("Bread" : String), (2 : ℚ))].map
          (fun it => get_product_price demo_manager it.1 * it.2)).sum :=
  create_order_true_appends_order demo_manager "alice" [("Bread", 2)]
    "20250101" "t" (by decide)

/-! ### C7: order statuses stay in the Pending/Completed/Updated set -/

/-- The status vocabulary of the spec: `Pending`, `Completed`, `Updated`. -/
def valid_status (s : String) : Prop :=
  s = "Pending" ∨ s = "Completed" ∨ s = "Updated"

instance (s : String) : Decidable (valid_status s) :=
  inferInstanceAs (Decidable (_ = _ ∨ _ = _ ∨ _ = _))

lemma create_order_status (m : BakeryManager) (cn : String)
    (items : List (String × ℚ)) (oid ts : String)
    (h : ∀ o ∈ m.orders, valid_status o.status) :
    ∀ o ∈ ((create_order m cn items oid ts).2).orders, valid_status o.status := by
  by_cases hc : (items.all (fun it =>
      match m.products.find? (fun p => p.name == it.1) with
      | none => false
      | some p => decide (it.2 ≤ p.quantity))) = true
  · simp only [create_order, if_pos hc]
    intro o ho
    rcases List.mem_append.mp ho with h1 | h1
    · exact h o h1
    · rw [List.mem_singleton.mp h1]
      exact Or.inl rfl
  · simp only [create_order, if_neg hc]
    exact h

lemma mark_orders_complete_status (m : BakeryManager) (selected : List String)
    (h : ∀ o ∈ m.orders, valid_status o.status) :
    ∀ o ∈ (mark_orders_complete m selected).orders, valid_status o.status := by
  intro o ho
  simp only [mark_orders_complete, List.mem_map] at ho
  obtain ⟨a, ha, rfl⟩ := ho
  cases hs : selected.contains a.order_id
  · rw [if_neg (by simp)]
    exact h a ha
  · rw [if_pos rfl]
    exact Or.inr (Or.inl rfl)

lemma update_first_order_status (os : List Order) (oid pn : String)
    (qty price : ℚ) (h : ∀ o ∈ os, valid_status o.status) :
    ∀ o ∈ update_first_order os oid pn qty price, valid_status o.status := by
  induction os with
  | nil => simp [update_first_order]
  | cons o rest ih =>
    simp only [update_first_order]
    cases hb : o.order_id == oid
    · rw [if_neg (by simp)]
      intro o' ho'
      rcases List.mem_cons.mp ho' with h1 | h1
      · rw [h1]
        exact h o (by simp)
      · exact ih (fun x hx => h x (by simp [hx])) o' h1
    · rw [if_pos rfl]
      intro o' ho'
      rcases List.mem_cons.mp ho' with h1 | h1
      · rw [h1]
        exact Or.inr (Or.inr rfl)
      · exact h o' (by simp [h1])

lemma update_order_submit_status (m : BakeryManager) (oid pn : String)
    (q? : Option ℚ) (h : ∀ o ∈ m.orders, valid_status o.status) :
    ∀ o ∈ (update_order_submit m oid pn q?).orders, valid_status o.status := by
  unfold update_order_submit
  split
  · exact h
  · split
    · exact h
    · split
      · exact h
      · split
        · exact h
        · split
          · exact h
          · split
            · exact h
            · exact update_first_order_status _ _ _ _ _ h

/-- C7: an order is created with status `"Pending"`, and whenever every
order's status lies in `{Pending, Completed, Updated}`, it still does after
any order creation, any `mark_orders_complete`, and any
`update_order_status_window` submit; moreover the order appended by a
successful `create_order` itself carries `"Pending"`. -/
theorem order_status_invariant (m : BakeryManager) (cn : String)
    (items : List (String × ℚ)) (oid ts : String) (selected : List String)
    (uoid upn : String) (q? : Option ℚ)
    (h : ∀ o ∈ m.orders, valid_status o.status) :
    (∀ o ∈ ((create_order m cn items oid ts).2).orders, valid_status o.status)
    ∧ (∀ o ∈ (mark_orders_complete m selected).orders, valid_status o.status)
    ∧ (∀ o ∈ (update_order_submit m uoid upn q?).orders, valid_status o.status)
    ∧ ((create_order m cn items oid ts).1 = true →
        (((create_order m cn items oid ts).2).orders.getLast?).map Order.status
          = some "Pending") := by
  refine ⟨create_order_status m cn items oid ts h,
    mark_orders_complete_status m selected h,
    update_order_submit_status m uoid upn q? h, fun htrue => ?_⟩
  by_cases hc : (items.all (fun it =>
      match m.products.find? (fun p => p.name == it.1) with
      | none => false
      | some p => decide (it.2 ≤ p.quantity))) = true
  · simp only [create_order, if_pos hc]
    rw [List.getLast?_concat]
    rfl
  · exfalso
    simp [create_order, hc] at htrue

/-! ### C6: role uniqueness lives in the GUI handler, not in add_staff -/

/-- Counterexample to C6 as stated: `BakeryManager.add_staff` appends
unconditionally, so calling it with role `"7"` — already held by `ann` in
the demo state — changes the staff list instead of leaving it unchanged,
and the resulting list carries the role twice. -/
theorem add_staff_role_counterexample :
    (∃ s ∈ demo_manager.staff, s.role = "7")
    ∧ (add_staff demo_manager "bob" "7" ["Tue 9-6"]).staff ≠ demo_manager.staff
    ∧ ((add_staff demo_manager "bob" "7" ["Tue 9-6"]).staff.filter
        (fun s => s.role == "7")).length = 2 := by
  decide

/-- C6 amended: role uniqueness is enforced only by the `submit` handler of
the add-staff window, which refuses the submission when some staff member
already holds the role; under that handler a duplicate role leaves the
staff list unchanged, and pairwise-distinct roles are preserved by every
submission.  `BakeryManager.add_staff` itself performs no check. -/
theorem add_staff_submit_role_unique (m : BakeryManager)
    (name roll shifts_input : String) :
    ((∃ s ∈ m.staff, s.role = roll) →
      (add_staff_submit m name roll shifts_input).staff = m.staff)
    ∧ (m.staff.Pairwise (fun a b => a.role ≠ b.role) →
      (add_staff_submit m name roll shifts_input).staff.Pairwise
        (fun a b => a.role ≠ b.role)) := by
  constructor
  · intro hex
    have hany : (m.staff.any (fun s => s.role == roll)) = true := by
      rw [List.any_eq_true]
      obtain ⟨s, hs, hr⟩ := hex
      exact ⟨s, hs, by simp [hr]⟩
    unfold add_staff_submit
    split
    · rfl
    · split
      · rfl
      · split
        · rfl
        · split
          · rfl
          · simp [hany]
  · intro hpw
    unfold add_staff_submit
    split
    · exact hpw
    · split
      · exact hpw
      · split
        · exact hpw
        · split
          · exact hpw
          · split
            · exact hpw
            · split
              · exact hpw
              · rename_i hnany _
                show (m.staff ++ [Staff.mk name roll _]).Pairwise _
                rw [List.pairwise_append]
                refine ⟨hpw, by simp, fun a ha b hb => ?_⟩
                rw [List.mem_singleton.mp hb]
                intro hcontra
                exact hnany (List.any_eq_true.mpr ⟨a, ha, by simp [hcontra]⟩)

/-- Witness for the amended C6: submitting `bob` with the already-used role
`"7"` leaves the demo staff list unchanged. -/
theorem add_staff_submit_role_unique_witness :
    (add_staff_submit demo_manager "bob" "7" "Tue 9-6").staff
      = demo_manager.staff :=
  (add_staff_submit_role_unique demo_manager "bob" "7" "Tue 9-6").1
    ⟨⟨"ann", "7", ["Mon 8-5"]⟩, by simp [demo_manager], rfl⟩

/-! ### C2: stock check and deduction, position by position -/

/-- The total quantity that `items` orders against position `i` of the
product list: the sum of the quantities of the entries whose product name
first matches at index `i`.  For `items` coming from a Python dict (keys
distinct) this is the single ordered quantity, or `0`. -/
def ordered_amount (ps : List Product) (items : List (String × ℚ)) (i : Nat) : ℚ :=
  ((items.filter (fun it => ps.findIdx (fun q => q.name == it.1) == i)).map
    (fun it => it.2)).sum

lemma deduct_first_findIdx (ps : List Product) (qn : String) (qty : ℚ)
    (pn : String) :
    (deduct_first ps qn qty).findIdx (fun q => q.name == pn)
      = ps.findIdx (fun q => q.name == pn) := by
  induction ps with
  | nil => rfl
  | cons p rest ih =>
    simp only [deduct_first]
    cases h : p.name == qn
    · rw [if_neg (by simp), List.findIdx_cons, List.findIdx_cons, ih]
    · rw [if_pos rfl, List.findIdx_cons, List.findIdx_cons]

lemma deduct_first_getElem? (ps : List Product) (pn : String) (qty : ℚ)
    (i : Nat) :
    (deduct_first ps pn qty)[i]? =
      if ps.findIdx (fun q => q.name == pn) = i
      then (ps[i]?).map (fun p => { p with quantity := p.quantity - qty })
      else ps[i]? := by
  induction ps generalizing i with
  | nil =>
    simp only [deduct_first, List.getElem?_nil, Option.map_none]
    split <;> rfl
  | cons p rest ih =>
    simp only [deduct_first]
    cases h : p.name == pn
    · rw [if_neg (by simp)]
      simp only [List.findIdx_cons, h, cond_false]
      cases i with
      | zero =>
        rw [if_neg (by omega)]
        simp [List.getElem?_cons_zero]
      | succ j =>
        simp only [List.getElem?_cons_succ]
        rw [ih j]
        by_cases hj : rest.findIdx (fun q => q.name == pn) = j
        · rw [if_pos hj, if_pos (by omega)]
        · rw [if_neg hj, if_neg (by omega)]
    · rw [if_pos rfl]
      simp only [List.findIdx_cons, h, cond_true]
      cases i with
      | zero =>
        rw [if_pos rfl]
        simp [List.getElem?_cons_zero]
      | succ j =>
        rw [if_neg (by omega)]
        simp [List.getElem?_cons_succ]

lemma ordered_amount_deduct_first (ps : List Product) (qn : String) (qty : ℚ)
    (items : List (String × ℚ)) (i : Nat) :
    ordered_amount (deduct_first ps qn qty) items i
      = ordered_amount ps items i := by
  unfold ordered_amount
  have hf : (fun it : String × ℚ =>
        (deduct_first ps qn qty).findIdx (fun q => q.name == it.1) == i)
      = (fun it : String × ℚ => ps.findIdx (fun q => q.name == it.1) == i) :=
    funext fun it => by rw [deduct_first_findIdx]
  rw [hf]

lemma deduct_products_getElem? (items : List (String × ℚ))
    (ps : List Product) (i : Nat) :
    (deduct_products ps items)[i]? =
      (ps[i]?).map
        (fun p => { p with quantity := p.quantity - ordered_amount ps items i }) := by
  induction items generalizing ps with
  | nil =>
    show ps[i]? = _
    cases ps[i]? with
    | none => rfl
    | some p =>
      cases p with
      | mk nm pr re qy => simp [ordered_amount]
  | cons it rest ih =>
    show (deduct_products (deduct_first ps it.1 it.2) rest)[i]? = _
    rw [ih, deduct_first_getElem?, ordered_amount_deduct_first]
    unfold ordered_amount
    rw [List.filter_cons]
    by_cases hidx : ps.findIdx (fun q => q.name == it.1) = i
    · have hbeq : (ps.findIdx (fun q => q.name == it.1) == i) = true := by
        simpa using hidx
      rw [if_pos hidx, if_pos hbeq]
      cases ps[i]? with
      | none => rfl
      | some p =>
        cases p with
        | mk nm pr re qy => simp [sub_sub]
    · have hbeq : ¬((ps.findIdx (fun q => q.name == it.1) == i) = true) := by
        simpa using hidx
      rw [if_neg hidx, if_neg hbeq]

/-- A state with two products of the same name, used to refute C2 as
stated: the first `Bread` entry is out of stock, the second has plenty. -/
def dup_manager : BakeryManager :=
  { ingredients := [],
    products := [⟨"Bread", 5, [], 0⟩, ⟨"Bread", 5, [], 5⟩],
    orders := [], staff := [] }

/-- Counterexample to C2 as stated: ordering one `Bread` from
`dup_manager` — where *some* product named `Bread` has quantity ≥ 1 —
nevertheless returns `False`, because the check only consults the *first*
product with the requested name. -/
theorem create_order_some_product_counterexample :
    (∀ it ∈ [(("Bread" : String), (1 : ℚ))], ∃ p ∈ dup_manager.products,
        p.name = it.1 ∧ it.2 ≤ p.quantity)
    ∧ (create_order dup_manager "c" [("Bread", 1)] "20250101" "t").1 = false := by
  decide

/-- C2 amended: `create_order` returns `True` iff for every
`(name, qty)` in `items` the *first* product in the products list with
that name exists and has quantity at least `qty`; and on a `True` return
the product at each position `i` keeps its name, price and recipe and
loses exactly the quantity ordered against position `i` (for dict-shaped
`items`, the single `qty` of the entry whose name first matches at `i`,
and `0` for products not named in `items` or shadowed by an earlier
product of the same name). -/
theorem create_order_check_and_deduction (m : BakeryManager) (cn : String)
    (items : List (String × ℚ)) (oid ts : String) :
    ((create_order m cn items oid ts).1 = true ↔
      ∀ it ∈ items, ∃ p, m.products.find? (fun q => q.name == it.1) = some p
        ∧ it.2 ≤ p.quantity)
    ∧ ((create_order m cn items oid ts).1 = true →
      ∀ i : Nat, ((create_order m cn items oid ts).2).products[i]? =
        (m.products[i]?).map
          (fun p => { p with quantity := p.quantity - ordered_amount m.products items i })) := by
  by_cases hc : (items.all (fun it =>
      match m.products.find? (fun p => p.name == it.1) with
      | none => false
      | some p => decide (it.2 ≤ p.quantity))) = true
  · constructor
    · rw [iff_true_left ?_]
      · intro it hit
        have hall := List.all_eq_true.mp hc it hit
        cases hfind : m.products.find? (fun q => q.name == it.1) with
        | none => rw [hfind] at hall; simp at hall
        | some p =>
          rw [hfind] at hall
          exact ⟨p, rfl, by simpa using hall⟩
      · simp [create_order, hc]
    · intro _ i
      simp only [create_order, if_pos hc]
      exact deduct_products_getElem? items m.products i
  · constructor
    · constructor
      · intro h
        exfalso
        simp [create_order, hc] at h
      · intro hrhs
        exfalso
        apply hc
        rw [List.all_eq_true]
        intro it hit
        obtain ⟨p, hfind, hle⟩ := hrhs it hit
        rw [hfind]
        simpa using hle
    · intro h
      exfalso
      simp [create_order, hc] at h

/-! ### Concrete instantiations of the theorems above -/

/-- Witness for the amended C2: after successfully ordering 2 Breads, the
product in position 0 (`Bread`) has lost exactly the quantity ordered
against that position. -/
theorem create_order_check_and_deduction_witness :
    ((create_order demo_manager "alice" [("Bread", 2)] "20250101" "t").2).products[0]?
      = (demo_manager.products[0]?).map
          (fun p => { p with quantity :=
            p.quantity - ordered_amount demo_manager.products [("Bread", 2)] 0 }) :=
  (create_order_check_and_deduction demo_manager "alice" [("Bread", 2)]
    "20250101" "t").2 (by decide) 0

/-- Witness for C3 at a concrete successful order. -/
theorem create_order_preserves_ingredients_witness :
    ((create_order demo_manager "alice" [("Bread", 2)] "20250101" "t").2).ingredients
      = demo_manager.ingredients :=
  create_order_preserves_ingredients demo_manager "alice" [("Bread", 2)]
    "20250101" "t"

/-- Witness for C4: `Salt` sits exactly at its reorder level (3 = 3) and is
not reported as low stock. -/
theorem check_low_stock_spec_witness :
    Ingredient.mk "Salt" 3 "kg" 3 ∉ check_low_stock demo_manager :=
  (check_low_stock_spec demo_manager).2.2.2 ⟨"Salt", 3, "kg", 3⟩
    (by simp [demo_manager]) rfl

/-- A demo state that also holds one completed order, for the report and
status theorems. -/
def sales_manager : BakeryManager :=
  { demo_manager with
    orders := [Order.mk "100" "a" [("Bread", 1)] 5 "Completed" "t"] }

/-- Witness for C5: appending a `Pending` order leaves `total_sales`
untouched but grows `total_orders`. -/
theorem generate_sales_report_spec_witness :
    (generate_sales_report { sales_manager with
        orders := sales_manager.orders
          ++ [Order.mk "101" "b" [("Cake", 1)] 20 "Pending" "t"] }).total_sales
      = (generate_sales_report sales_manager).total_sales
    ∧ (generate_sales_report { sales_manager with
        orders := sales_manager.orders
          ++ [Order.mk "101" "b" [("Cake", 1)] 20 "Pending" "t"] }).total_orders
      = sales_manager.orders.length + 1 :=
  (generate_sales_report_spec sales_manager).2.2
    (Order.mk "101" "b" [("Cake", 1)] 20 "Pending" "t") (Or.inl rfl)

/-- Witness for C7: after a concrete order creation on a state whose only
order is `Completed`, every status is still in the valid set. -/
theorem order_status_invariant_witness :
    (((create_order sales_manager "alice" [("Bread", 2)] "20250101" "t").2).orders.getLast?).map
        Order.status = some "Pending" :=
  (order_status_invariant sales_manager "alice" [("Bread", 2)] "20250101" "t"
    ["100"] "100" "Bread" (some 1) (by decide)).2.2.2 (by decide)

/-- Witness for C8: restocking 4 Breads through the product-status window
leaves the totals of the existing orders untouched. -/
theorem product_ops_preserve_order_totals_witness :
    (product_status_submit sales_manager "Bread" (some 4)).orders.map Order.total
      = sales_manager.orders.map Order.total :=
  (product_ops_preserve_order_totals sales_manager "Muffin" 3 [] 5 "Bread"
    (some 4)).2

/-- Witness for C10: an absent product is priced 0, and `Cake` — the first
and only product of that name — is priced 20. -/
theorem get_product_price_spec_witness :
    get_product_price demo_manager "Muffin" = 0
    ∧ get_product_price demo_manager "Cake" = 20 :=
  ⟨(get_product_price_spec demo_manager "Muffin").1 (by decide),
   (get_product_price_spec demo_manager "Cake").2
     [⟨"Bread", 5, [("Flour", 1)], 10⟩] ⟨"Cake", 20, [("Flour", 2)], 3⟩ []
     rfl rfl (by decide)⟩

end Bakery
